import Mathlib

/-!
Verification of the GNN training script (GNN.py): the metric aggregator
`eval`, the inference pass `compute_test`, the train/validate/test driver
loop, the dataset split, and the CLI argument handling, embedded as
executable Lean definitions.

Modelling conventions:
* tensors of class probabilities are `List (List ℚ)` (one row per sample);
  the float literals 0.6 / 0.1 of the split are modelled as exact rationals
  (for every dataset size below 2^49 the Python float expression
  `int(len(dataset) * 0.6)` agrees with `⌊3n/5⌋`, since the rounding error
  of the product stays below half an ulp of the nearest integer);
* Python exceptions (ZeroDivisionError, IndexError, sklearn ValueError)
  become `Except.error`;
* division by zero in ℚ yields 0, which coincides with sklearn's
  `zero_division=0` fallback used by `precision_score` / `recall_score`
  (and with the `zero_division='warn'`-treated-as-0 default of `f1_score`),
  so those fallbacks need no special casing;
* the neural network itself, the optimizer and the data loader are opaque
  collaborators: the forward computation is an abstract function of the
  parameters, the training-mode flag and the batch.
-/

/-- A PredictionRecord: one element of `out_log`, i.e. the pair
`[F.softmax(out, dim=1), y]` — a matrix of class probabilities (one row per
sample of the batch) together with the batch's true labels. -/
structure Record where
  probs : List (List ℚ)
  labels : List ℕ
  deriving DecidableEq

/-- Helper for `argmax`: scan the tail keeping the best index/value seen.
A strictly larger value moves the index, so ties keep the first maximum,
as numpy's `argmax` does. -/
def argmaxGo : List ℚ → ℕ → ℕ → ℚ → ℕ
  | [], _, bi, _ => bi
  | x :: xs, i, bi, bv =>
    if bv < x then argmaxGo xs (i + 1) i x else argmaxGo xs (i + 1) bi bv

/-- numpy `argmax` over one row: index of the first maximal entry
(`batch[0].data.cpu().numpy().argmax(axis=1)`, applied per row). -/
def argmax : List ℚ → ℕ
  | [] => 0
  | x :: xs => argmaxGo xs 1 0 x

/-- sklearn `accuracy_score(y, pred)`: the fraction of positions where the
prediction equals the label. -/
def accuracy_score (y pred : List ℕ) : ℚ :=
  (((y.zip pred).countP fun ab => ab.1 == ab.2 : ℕ) : ℚ) / (y.length : ℚ)

/-- The set of class labels occurring in the true labels or the
predictions; sklearn computes its default label set this way. -/
def presentLabels (y pred : List ℕ) : Finset ℕ :=
  y.toFinset ∪ pred.toFinset

/-- True positives of class `c`. -/
def tpCount (y pred : List ℕ) (c : ℕ) : ℕ :=
  (y.zip pred).countP fun ab => ab.1 == c && ab.2 == c

/-- False positives of class `c`. -/
def fpCount (y pred : List ℕ) (c : ℕ) : ℕ :=
  (y.zip pred).countP fun ab => ab.1 != c && ab.2 == c

/-- False negatives of class `c`. -/
def fnCount (y pred : List ℕ) (c : ℕ) : ℕ :=
  (y.zip pred).countP fun ab => ab.1 == c && ab.2 != c

/-- Per-class F1 score, `2·TP / (2·TP + FP + FN)`; when the denominator is
zero sklearn's zero-division fallback gives 0, which is exactly ℚ's
division by zero. -/
def f1Class (y pred : List ℕ) (c : ℕ) : ℚ :=
  ((2 * tpCount y pred c : ℕ) : ℚ) /
    ((2 * tpCount y pred c + fpCount y pred c + fnCount y pred c : ℕ) : ℚ)

/-- sklearn `f1_score(y, pred, average='macro')`: unweighted mean of the
per-class F1 scores over the labels present in `y` or `pred`. -/
def f1_macro_avg (y pred : List ℕ) : ℚ :=
  ((presentLabels y pred).sum fun c => f1Class y pred c) /
    ((presentLabels y pred).card : ℚ)

/-- sklearn raises `ValueError` for `average='binary'` (the default used by
`precision_score` / `recall_score` here) when the union of labels in `y`
and `pred` is not binary with respect to `pos_label=1`: more than two
distinct labels (multiclass target), or exactly two distinct labels neither
of which is the positive class 1. -/
def binaryTargetError (y pred : List ℕ) : Bool :=
  decide (2 < (presentLabels y pred).card) ||
    (decide ((presentLabels y pred).card = 2) &&
      decide (1 ∉ presentLabels y pred))

/-- sklearn `precision_score(y, pred, zero_division=0)` with the default
`average='binary'`, `pos_label=1`: `TP/(TP+FP)` for class 1, 0 when the
denominator is 0, error on a non-binary target. -/
def precision_score (y pred : List ℕ) : Except String ℚ :=
  if binaryTargetError y pred then
    Except.error "ValueError: target is multiclass but average is binary"
  else
    Except.ok (((tpCount y pred 1 : ℕ) : ℚ) /
      ((tpCount y pred 1 + fpCount y pred 1 : ℕ) : ℚ))

/-- sklearn `recall_score(y, pred, zero_division=0)` with the default
`average='binary'`, `pos_label=1`: `TP/(TP+FN)` for class 1, 0 when the
denominator is 0, error on a non-binary target. -/
def recall_score (y pred : List ℕ) : Except String ℚ :=
  if binaryTargetError y pred then
    Except.error "ValueError: target is multiclass but average is binary"
  else
    Except.ok (((tpCount y pred 1 : ℕ) : ℚ) /
      ((tpCount y pred 1 + fnCount y pred 1 : ℕ) : ℚ))

/-- The per-batch body of `eval`'s loop (GNN.py lines 82-90): predictions
are the row-wise argmax of the probabilities (line 83); `batch[0][:, 1]`
(line 84) raises IndexError when a row has fewer than two entries; the four
sklearn metrics are accuracy, macro-F1, binary precision and binary recall,
the last two erroring on a non-binary target. -/
def evalBatch (r : Record) : Except String (ℚ × ℚ × ℚ × ℚ) :=
  if r.probs.any fun row => decide (row.length < 2) then
    Except.error "IndexError: index 1 is out of bounds for axis 1"
  else if r.probs.length != r.labels.length then
    Except.error "ValueError: inconsistent numbers of samples"
  else
    match precision_score r.labels (r.probs.map argmax),
          recall_score r.labels (r.probs.map argmax) with
    | Except.ok p, Except.ok rc =>
        Except.ok (accuracy_score r.labels (r.probs.map argmax),
                   f1_macro_avg r.labels (r.probs.map argmax), p, rc)
    | Except.error e, _ => Except.error e
    | Except.ok _, Except.error e => Except.error e

/-- The accumulator loop of `eval` (lines 82-90): running sums of the four
per-batch metrics, stopping at the first failing batch. -/
def evalLoop : List Record → ℚ → ℚ → ℚ → ℚ → Except String (ℚ × ℚ × ℚ × ℚ)
  | [], a, f, p, r => Except.ok (a, f, p, r)
  | b :: rest, a, f, p, r =>
    match evalBatch b with
    | Except.error e => Except.error e
    | Except.ok v => evalLoop rest (a + v.1) (f + v.2.1) (p + v.2.2.1) (r + v.2.2.2)

/-- The Metric Aggregator `eval(log)` (GNN.py lines 76-92): accumulate the
four per-batch metrics over the log, then divide each sum by `len(log)`
(line 92) — a Python `ZeroDivisionError` when the log is empty.  It is a
pure function of its input. -/
def eval (log : List Record) : Except String (ℚ × ℚ × ℚ × ℚ) :=
  match evalLoop log 0 0 0 0 with
  | Except.error e => Except.error e
  | Except.ok s =>
    if log.length = 0 then Except.error "ZeroDivisionError: division by zero"
    else
      Except.ok (s.1 / (log.length : ℚ), s.2.1 / (log.length : ℚ),
                 s.2.2.1 / (log.length : ℚ), s.2.2.2 / (log.length : ℚ))

/-- Spec-side auxiliary: mapping `evalBatch` over the whole log, keeping
each batch's four metrics (the same computation as `evalLoop`, but
returning the per-batch values instead of their running sums). -/
def mapBatches : List Record → Except String (List (ℚ × ℚ × ℚ × ℚ))
  | [] => Except.ok []
  | b :: rest =>
    match evalBatch b, mapBatches rest with
    | Except.ok v, Except.ok vs => Except.ok (v :: vs)
    | Except.error e, _ => Except.error e
    | Except.ok _, Except.error e => Except.error e

/-- Spec-side definition: the unweighted arithmetic mean of a list of
rationals (the spec's "average of batch averages, each batch weighted
equally regardless of size"). -/
def mean (xs : List ℚ) : ℚ := xs.sum / (xs.length : ℚ)

/-! ## Model state and the inference pass `compute_test` -/

/-- The model as seen by this script: opaque parameters `P` plus the
training-mode flag toggled by `model.train()` / `model.eval()` (the only
piece of mode state the script manipulates). -/
structure MState (P : Type) where
  params : P
  training : Bool

/-- `compute_test(loader)` (GNN.py lines 95-106): `model.eval()` switches
the mode flag off, then a forward-only pass (`torch.no_grad()`, so
parameters are not mutated) maps every batch to a PredictionRecord and
accumulates the NLL loss; it returns `(eval(out_log), loss_test)` together
with the model state it leaves behind.  The forward function `fwd` takes
the parameters and the mode flag; with the flag `false` the dropout of
`Net.forward` is the identity, so inference consumes no randomness and the
output is a function of the parameters and the batch alone.  The loaders
passed to it are built with `shuffle=False`, so the batch list is the same
on every call. -/
def compute_test {P B : Type} (fwd : P → Bool → B → Record)
    (nll : P → Bool → B → ℚ) (s : MState P) (loader : List B) :
    (Except String (ℚ × ℚ × ℚ × ℚ) × ℚ) × MState P :=
  let s1 : MState P := { params := s.params, training := false }
  ((eval (loader.map fun d => fwd s1.params s1.training d),
    (loader.map fun d => nll s1.params s1.training d).sum), s1)

/-- One run of the `__main__` epoch loop, tracking the model-mode flag
(GNN.py lines 119-134): `model.train()` is called once before the loop;
each epoch runs its training batches under the current flag (recorded
here), updates the parameters, then calls `compute_test(val_loader)` —
which flips the flag to `false`; no statement inside the loop ever sets it
back to `true`.  Returns the flag seen by each epoch's training forward
passes, and the final state. -/
def runEpochs {P B : Type} (fwd : P → Bool → B → Record)
    (nll : P → Bool → B → ℚ) (upd : P → P) (valLoader : List B) :
    MState P → ℕ → List Bool × MState P
  | s, 0 => ([], s)
  | s, k + 1 =>
    let sTrain : MState P := { params := upd s.params, training := s.training }
    let sVal := (compute_test fwd nll sTrain valLoader).2
    let rest := runEpochs fwd nll upd valLoader sVal k
    (s.training :: rest.1, rest.2)

/-- Trivial forward function for instantiating the loop model. -/
def fwd0 : Unit → Bool → Unit → Record := fun _ _ _ => { probs := [], labels := [] }

/-- Trivial loss function for instantiating the loop model. -/
def nll0 : Unit → Bool → Unit → ℚ := fun _ _ _ => 0

/-- Trivial parameter update for instantiating the loop model. -/
def upd0 : Unit → Unit := fun p => p

/-! ## The training-pass prediction log `out_log` -/

/-- The PredictionRecords appended during one epoch's training pass,
abstracted to (epoch index, batch index) identifiers — for the lifetime
claim only the identity of the records matters, not their contents. -/
def batchRecords (epoch numBatches : ℕ) : List (ℕ × ℕ) :=
  (List.range numBatches).map fun i => (epoch, i)

/-- The list `out_log` as handed to `eval` at the end of epoch `k`
(GNN.py lines 116, 132-133): it is initialised once before the epoch loop,
appended to on every training batch, and never cleared, so at epoch `k` it
holds the records of all epochs `0..k`. -/
def outLogAt (numBatches : ℕ) : ℕ → List (ℕ × ℕ)
  | 0 => batchRecords 0 numBatches
  | k + 1 => outLogAt numBatches k ++ batchRecords (k + 1) numBatches

/-! ## The dataset split -/

/-- `num_training = int(len(dataset) * 0.6)` (GNN.py line 42), with the
float literal 0.6 as the exact rational. -/
def num_training (n : ℕ) : ℕ := ⌊(n : ℚ) * (0.6 : ℚ)⌋₊

/-- `num_val = int(len(dataset) * 0.1)` (GNN.py line 43). -/
def num_val (n : ℕ) : ℕ := ⌊(n : ℚ) * (0.1 : ℚ)⌋₊

/-- `num_test = len(dataset) - (num_training + num_val)` (line 44). -/
def num_test (n : ℕ) : ℕ := n - (num_training n + num_val n)

/-- `random_split(dataset, [num_training, num_val, num_test])` (line 45):
torch shuffles the indices `0..n-1` into some permutation and hands out
consecutive chunks of the requested lengths.  The permutation is a
parameter here; it is drawn once at startup and the three chunks are fixed
for the whole run. -/
def random_split (perm : List ℕ) (n : ℕ) : List ℕ × List ℕ × List ℕ :=
  (perm.take (num_training n),
   (perm.drop (num_training n)).take (num_val n),
   perm.drop (num_training n + num_val n))

/-! ## The Training Driver's control flow -/

/-- Observable events of the `__main__` block (lines 114-141). -/
inductive Ev where
  | trainPass : ℕ → Ev
  | valPass : ℕ → Ev
  | epochLine : ℕ → Ev
  | testPass : Ev
  | testLine : Ev
  deriving DecidableEq

/-- The events of one iteration of the epoch loop (lines 120-137): the
training pass over `train_loader`, then `compute_test(val_loader)`, then
the per-epoch summary print. -/
def epochEvents (k : ℕ) : List Ev :=
  [Ev.trainPass k, Ev.valPass k, Ev.epochLine k]

/-- The full event trace of the driver: the epoch loop for
`epoch in range(args.epochs)`, followed by `compute_test(test_loader)` and
the final test-summary print (lines 139-141). -/
def driverTrace (N : ℕ) : List Ev :=
  (List.range N).flatMap epochEvents ++ [Ev.testPass, Ev.testLine]

def isTrainPass : Ev → Bool
  | Ev.trainPass _ => true
  | _ => false

def isValPass : Ev → Bool
  | Ev.valPass _ => true
  | _ => false

def isEpochLine : Ev → Bool
  | Ev.epochLine _ => true
  | _ => false

def isTestPass : Ev → Bool
  | Ev.testPass => true
  | _ => false

def isTestLine : Ev → Bool
  | Ev.testLine => true
  | _ => false

/-! ## CLI argument handling for `--dataset` -/

/-- The dataset names listed in the flag's help string
(`help='DD/PROTEINS/NCI1/NCI109/Mutagenicity/ENZYMES'`, GNN.py line 23). -/
def allowedDatasets : List String :=
  ["DD", "PROTEINS", "NCI1", "NCI109", "Mutagenicity", "ENZYMES"]

/-- The `choices` argument of `parser.add_argument('--dataset', ...)`:
the call passes none (line 23 only sets `type`, `default` and `help`). -/
def datasetChoices : Option (List String) := none

/-- argparse's value check: a supplied value is rejected at parse time
exactly when a `choices` list was given and the value is not in it. -/
def checkValue (choices : Option (List String)) (v : String) :
    Except String String :=
  match choices with
  | none => Except.ok v
  | some cs =>
    if v ∈ cs then Except.ok v
    else Except.error ("argument --dataset: invalid choice: " ++ v)

/-! ## Concrete records used to instantiate the theorems -/

/-- One sample, true class 1, predicted class 1. -/
def recA : Record := { probs := [[3/10, 7/10]], labels := [1] }

/-- Two samples, true classes 0 and 1, both predicted 0. -/
def recB : Record := { probs := [[3/5, 2/5], [4/5, 1/5]], labels := [0, 1] }

/-- One sample, all labels and predictions in the negative class 0. -/
def recNeg : Record := { probs := [[7/10, 3/10]], labels := [0] }

/-- A batch whose labels span three classes. -/
def recMulti : Record :=
  { probs := [[1, 0, 0], [0, 1, 0], [0, 0, 1]], labels := [0, 1, 2] }

/-! ## General lemmas -/

/-- A quotient of a nonnegative numerator by a larger denominator lies in
the unit interval; with ℚ's 0-valued division by zero this needs no
positivity hypothesis on the denominator. -/
theorem div_mem_unit {a b : ℚ} (h0 : 0 ≤ a) (h1 : a ≤ b) :
    0 ≤ a / b ∧ a / b ≤ 1 := by
  rcases eq_or_lt_of_le (le_trans h0 h1) with hb | hb
  · have ha : a = 0 := le_antisymm (hb ▸ h1) h0
    simp [ha, hb.symm]
  · exact ⟨div_nonneg h0 hb.le, (div_le_one hb).mpr h1⟩

theorem sum_nonneg_of_mem (xs : List ℚ) (h : ∀ x ∈ xs, 0 ≤ x) :
    0 ≤ xs.sum := by
  induction xs with
  | nil => simp
  | cons x t ih =>
    simp only [List.sum_cons]
    have hx := h x (List.mem_cons_self x t)
    have ht := ih fun y hy => h y (List.mem_cons_of_mem x hy)
    linarith

theorem sum_le_length (xs : List ℚ) (h : ∀ x ∈ xs, x ≤ 1) :
    xs.sum ≤ (xs.length : ℚ) := by
  induction xs with
  | nil => simp
  | cons x t ih =>
    simp only [List.sum_cons, List.length_cons]
    push_cast
    have hx := h x (List.mem_cons_self x t)
    have ht := ih fun y hy => h y (List.mem_cons_of_mem x hy)
    linarith

/-- The mean of a list of values in the unit interval is in the unit
interval (it is 0 for the empty list). -/
theorem mean_mem_unit (xs : List ℚ) (h : ∀ x ∈ xs, 0 ≤ x ∧ x ≤ 1) :
    0 ≤ mean xs ∧ mean xs ≤ 1 :=
  div_mem_unit (sum_nonneg_of_mem xs fun x hx => (h x hx).1)
    (sum_le_length xs fun x hx => (h x hx).2)

/-! ## Lemmas about `mapBatches`, `evalLoop` and `eval` -/

theorem mapBatches_length :
    ∀ (log : List Record) (per : List (ℚ × ℚ × ℚ × ℚ)),
      mapBatches log = Except.ok per → per.length = log.length := by
  intro log
  induction log with
  | nil =>
    intro per h
    simp only [mapBatches] at h
    cases h
    rfl
  | cons b rest ih =>
    intro per h
    simp only [mapBatches] at h
    cases hb : evalBatch b with
    | error e => rw [hb] at h; cases h
    | ok v =>
      rw [hb] at h
      cases hr : mapBatches rest with
      | error e => rw [hr] at h; cases h
      | ok vs =>
        rw [hr] at h
        cases h
        simp [ih vs hr]

theorem mapBatches_mem :
    ∀ (log : List Record) (per : List (ℚ × ℚ × ℚ × ℚ))
      (v : ℚ × ℚ × ℚ × ℚ),
      mapBatches log = Except.ok per → v ∈ per →
      ∃ b ∈ log, evalBatch b = Except.ok v := by
  intro log
  induction log with
  | nil =>
    intro per v h hv
    simp only [mapBatches] at h
    cases h
    cases hv
  | cons b rest ih =>
    intro per v h hv
    simp only [mapBatches] at h
    cases hb : evalBatch b with
    | error e => rw [hb] at h; cases h
    | ok w =>
      rw [hb] at h
      cases hr : mapBatches rest with
      | error e => rw [hr] at h; cases h
      | ok vs =>
        rw [hr] at h
        cases h
        rcases List.mem_cons.mp hv with hv | hv
        · exact ⟨b, List.mem_cons_self b rest, hv ▸ hb⟩
        · rcases ih vs v hr hv with ⟨b', hb', he'⟩
          exact ⟨b', List.mem_cons_of_mem b hb', he'⟩

theorem mapBatches_error_of_mem :
    ∀ (log : List Record) (r : Record) (e : String),
      r ∈ log → evalBatch r = Except.error e →
      ∃ e2, mapBatches log = Except.error e2 := by
  intro log
  induction log with
  | nil => intro r e hr _; cases hr
  | cons b rest ih =>
    intro r e hr he
    rcases List.mem_cons.mp hr with hr | hr
    · subst hr
      exact ⟨e, by simp only [mapBatches]; rw [he]⟩
    · cases hb : evalBatch b with
      | error e1 => exact ⟨e1, by simp only [mapBatches]; rw [hb]⟩
      | ok v =>
        rcases ih r e hr he with ⟨e2, h2⟩
        exact ⟨e2, by simp only [mapBatches]; rw [hb, h2]⟩

theorem evalLoop_ok :
    ∀ (log : List Record) (per : List (ℚ × ℚ × ℚ × ℚ)) (a f p r : ℚ),
      mapBatches log = Except.ok per →
      evalLoop log a f p r = Except.ok
        (a + (per.map fun v => v.1).sum, f + (per.map fun v => v.2.1).sum,
         p + (per.map fun v => v.2.2.1).sum,
         r + (per.map fun v => v.2.2.2).sum) := by
  intro log
  induction log with
  | nil =>
    intro per a f p r h
    simp only [mapBatches] at h
    cases h
    simp [evalLoop]
  | cons b rest ih =>
    intro per a f p r h
    simp only [mapBatches] at h
    cases hb : evalBatch b with
    | error e => rw [hb] at h; cases h
    | ok v =>
      rw [hb] at h
      cases hr : mapBatches rest with
      | error e => rw [hr] at h; cases h
      | ok vs =>
        rw [hr] at h
        cases h
        simp only [evalLoop, hb, ih vs _ _ _ _ hr, List.map_cons, List.sum_cons]
        ring_nf

theorem evalLoop_error :
    ∀ (log : List Record) (e : String) (a f p r : ℚ),
      mapBatches log = Except.error e →
      evalLoop log a f p r = Except.error e := by
  intro log
  induction log with
  | nil => intro e a f p r h; simp only [mapBatches] at h; cases h
  | cons b rest ih =>
    intro e a f p r h
    simp only [mapBatches] at h
    cases hb : evalBatch b with
    | error e1 =>
      rw [hb] at h
      cases h
      simp only [evalLoop, hb]
    | ok v =>
      rw [hb] at h
      cases hr : mapBatches rest with
      | error e2 =>
        rw [hr] at h
        cases h
        simp only [evalLoop, hb]
        exact ih _ _ _ _ _ hr
      | ok vs => rw [hr] at h; cases h

/-- Characterisation of a successful aggregation: `eval` returns the
unweighted mean of the per-batch metric values. -/
theorem eval_eq_mean (log : List Record) (per : List (ℚ × ℚ × ℚ × ℚ))
    (hok : mapBatches log = Except.ok per) (hne : log ≠ []) :
    eval log = Except.ok
      (mean (per.map fun v => v.1), mean (per.map fun v => v.2.1),
       mean (per.map fun v => v.2.2.1), mean (per.map fun v => v.2.2.2)) := by
  have hlen : per.length = log.length := mapBatches_length log per hok
  have h0 : ¬ log.length = 0 := fun h => hne (List.length_eq_zero.mp h)
  simp only [eval, evalLoop_ok log per 0 0 0 0 hok, zero_add, if_neg h0]
  simp [mean, List.length_map, hlen]

/-! ## Bounds on the per-batch metrics -/

theorem accuracy_score_bounds (y pred : List ℕ) :
    0 ≤ accuracy_score y pred ∧ accuracy_score y pred ≤ 1 := by
  unfold accuracy_score
  apply div_mem_unit (Nat.cast_nonneg _)
  have h1 : (y.zip pred).countP (fun ab => ab.1 == ab.2) ≤ (y.zip pred).length :=
    List.countP_le_length _
  have h2 : (y.zip pred).length ≤ y.length := by
    rw [List.length_zip]; exact min_le_left _ _
  exact_mod_cast le_trans h1 h2

theorem f1Class_bounds (y pred : List ℕ) (c : ℕ) :
    0 ≤ f1Class y pred c ∧ f1Class y pred c ≤ 1 := by
  unfold f1Class
  apply div_mem_unit (Nat.cast_nonneg _)
  have : 2 * tpCount y pred c ≤
      2 * tpCount y pred c + fpCount y pred c + fnCount y pred c := by omega
  exact_mod_cast this

theorem f1_macro_avg_bounds (y pred : List ℕ) :
    0 ≤ f1_macro_avg y pred ∧ f1_macro_avg y pred ≤ 1 := by
  unfold f1_macro_avg
  apply div_mem_unit
  · exact Finset.sum_nonneg fun c _ => (f1Class_bounds y pred c).1
  · calc ((presentLabels y pred).sum fun c => f1Class y pred c)
        ≤ (presentLabels y pred).card • (1 : ℚ) :=
          Finset.sum_le_card_nsmul _ _ 1 fun c _ => (f1Class_bounds y pred c).2
      _ = ((presentLabels y pred).card : ℚ) := by simp

theorem precision_score_ok_bounds (y pred : List ℕ) (q : ℚ)
    (h : precision_score y pred = Except.ok q) : 0 ≤ q ∧ q ≤ 1 := by
  unfold precision_score at h
  split at h
  · cases h
  · cases h
    apply div_mem_unit (Nat.cast_nonneg _)
    exact_mod_cast Nat.le_add_right _ _

theorem recall_score_ok_bounds (y pred : List ℕ) (q : ℚ)
    (h : recall_score y pred = Except.ok q) : 0 ≤ q ∧ q ≤ 1 := by
  unfold recall_score at h
  split at h
  · cases h
  · cases h
    apply div_mem_unit (Nat.cast_nonneg _)
    exact_mod_cast Nat.le_add_right _ _

/-- Whenever `evalBatch` succeeds, all four returned per-batch metrics lie
in the unit interval. -/
theorem evalBatch_ok_bounds (r : Record) (v : ℚ × ℚ × ℚ × ℚ)
    (h : evalBatch r = Except.ok v) :
    (0 ≤ v.1 ∧ v.1 ≤ 1) ∧ (0 ≤ v.2.1 ∧ v.2.1 ≤ 1) ∧
    (0 ≤ v.2.2.1 ∧ v.2.2.1 ≤ 1) ∧ (0 ≤ v.2.2.2 ∧ v.2.2.2 ≤ 1) := by
  unfold evalBatch at h
  split at h
  · cases h
  · split at h
    · cases h
    · cases hp : precision_score r.labels (r.probs.map argmax) with
      | error e => rw [hp] at h; cases h
      | ok pq =>
        cases hrc : recall_score r.labels (r.probs.map argmax) with
        | error e => rw [hp, hrc] at h; cases h
        | ok rq =>
          rw [hp, hrc] at h
          cases h
          exact ⟨accuracy_score_bounds _ _, f1_macro_avg_bounds _ _,
            precision_score_ok_bounds _ _ _ hp, recall_score_ok_bounds _ _ _ hrc⟩

/-- Inversion of a successful aggregation: the log was non-empty, every
batch succeeded, and the result is the tuple of means. -/
theorem eval_ok_inv (log : List Record) (v : ℚ × ℚ × ℚ × ℚ)
    (h : eval log = Except.ok v) :
    ∃ per, mapBatches log = Except.ok per ∧ log ≠ [] ∧
      v = (mean (per.map fun x => x.1), mean (per.map fun x => x.2.1),
           mean (per.map fun x => x.2.2.1), mean (per.map fun x => x.2.2.2)) := by
  cases hm : mapBatches log with
  | error e =>
    rw [eval, evalLoop_error log e 0 0 0 0 hm] at h
    cases h
  | ok per =>
    by_cases hl : log.length = 0
    · rw [eval, evalLoop_ok log per 0 0 0 0 hm] at h
      simp [hl] at h
    · have hne : log ≠ [] := fun hh => hl (by simp [hh])
      refine ⟨per, rfl, hne, ?_⟩
      have heq := eval_eq_mean log per hm hne
      rw [h] at heq
      exact Except.ok.inj heq

/-! ## Concrete evaluations of the aggregator -/

theorem evalBatch_recA : evalBatch recA = Except.ok (1, 1, 1, 1) := by
  have hpred : argmax [(3 : ℚ)/10, 7/10] = 1 := by norm_num [argmax, argmaxGo]
  have hprec : precision_score [1] [1] = Except.ok 1 := by
    have hb : binaryTargetError [1] [1] = false := by decide
    have h1 : tpCount [1] [1] 1 = 1 := by decide
    have h2 : fpCount [1] [1] 1 = 0 := by decide
    rw [precision_score, hb, h1, h2]; norm_num
  have hrec : recall_score [1] [1] = Except.ok 1 := by
    have hb : binaryTargetError [1] [1] = false := by decide
    have h1 : tpCount [1] [1] 1 = 1 := by decide
    have h2 : fnCount [1] [1] 1 = 0 := by decide
    rw [recall_score, hb, h1, h2]; norm_num
  have hacc : accuracy_score [1] [1] = 1 := by norm_num [accuracy_score]
  have hf1 : f1_macro_avg [1] [1] = 1 := by
    have hp : presentLabels [1] [1] = {1} := by decide
    have c1 : f1Class [1] [1] 1 = 1 := by
      have t : tpCount [1] [1] 1 = 1 := by decide
      have f : fpCount [1] [1] 1 = 0 := by decide
      have n : fnCount [1] [1] 1 = 0 := by decide
      rw [f1Class, t, f, n]; norm_num
    rw [f1_macro_avg, hp, Finset.sum_singleton, c1]; norm_num
  simp only [evalBatch, recA]
  norm_num [hpred, hprec, hrec, hacc, hf1]

theorem evalBatch_recB : evalBatch recB = Except.ok (1/2, 1/3, 0, 0) := by
  have hpred1 : argmax [(3 : ℚ)/5, 2/5] = 0 := by norm_num [argmax, argmaxGo]
  have hpred2 : argmax [(4 : ℚ)/5, 1/5] = 0 := by norm_num [argmax, argmaxGo]
  have hprec : precision_score [0, 1] [0, 0] = Except.ok 0 := by
    have hb : binaryTargetError [0, 1] [0, 0] = false := by decide
    have h1 : tpCount [0, 1] [0, 0] 1 = 0 := by decide
    have h2 : fpCount [0, 1] [0, 0] 1 = 0 := by decide
    rw [precision_score, hb, h1, h2]; norm_num
  have hrec : recall_score [0, 1] [0, 0] = Except.ok 0 := by
    have hb : binaryTargetError [0, 1] [0, 0] = false := by decide
    have h1 : tpCount [0, 1] [0, 0] 1 = 0 := by decide
    have h2 : fnCount [0, 1] [0, 0] 1 = 1 := by decide
    rw [recall_score, hb, h1, h2]; norm_num
  have hacc : accuracy_score [0, 1] [0, 0] = 1/2 := by norm_num [accuracy_score]
  have hf1 : f1_macro_avg [0, 1] [0, 0] = 1/3 := by
    have hp : presentLabels [0, 1] [0, 0] = {0, 1} := by decide
    have c0 : f1Class [0, 1] [0, 0] 0 = 2/3 := by
      have t : tpCount [0, 1] [0, 0] 0 = 1 := by decide
      have f : fpCount [0, 1] [0, 0] 0 = 1 := by decide
      have n : fnCount [0, 1] [0, 0] 0 = 0 := by decide
      rw [f1Class, t, f, n]; norm_num
    have c1 : f1Class [0, 1] [0, 0] 1 = 0 := by
      have t : tpCount [0, 1] [0, 0] 1 = 0 := by decide
      have f : fpCount [0, 1] [0, 0] 1 = 0 := by decide
      have n : fnCount [0, 1] [0, 0] 1 = 1 := by decide
      rw [f1Class, t, f, n]; norm_num
    rw [f1_macro_avg, hp, Finset.sum_pair (by decide : (0 : ℕ) ≠ 1), c0, c1]
    norm_num
  simp only [evalBatch, recB]
  norm_num [hpred1, hpred2, hprec, hrec, hacc, hf1]

theorem evalBatch_recNeg : evalBatch recNeg = Except.ok (1, 1, 0, 0) := by
  have hpred : argmax [(7 : ℚ)/10, 3/10] = 0 := by norm_num [argmax, argmaxGo]
  have hprec : precision_score [0] [0] = Except.ok 0 := by
    have hb : binaryTargetError [0] [0] = false := by decide
    have h1 : tpCount [0] [0] 1 = 0 := by decide
    have h2 : fpCount [0] [0] 1 = 0 := by decide
    rw [precision_score, hb, h1, h2]; norm_num
  have hrec : recall_score [0] [0] = Except.ok 0 := by
    have hb : binaryTargetError [0] [0] = false := by decide
    have h1 : tpCount [0] [0] 1 = 0 := by decide
    have h2 : fnCount [0] [0] 1 = 0 := by decide
    rw [recall_score, hb, h1, h2]; norm_num
  have hacc : accuracy_score [0] [0] = 1 := by norm_num [accuracy_score]
  have hf1 : f1_macro_avg [0] [0] = 1 := by
    have hp : presentLabels [0] [0] = {0} := by decide
    have c0 : f1Class [0] [0] 0 = 1 := by
      have t : tpCount [0] [0] 0 = 1 := by decide
      have f : fpCount [0] [0] 0 = 0 := by decide
      have n : fnCount [0] [0] 0 = 0 := by decide
      rw [f1Class, t, f, n]; norm_num
    rw [f1_macro_avg, hp, Finset.sum_singleton, c0]; norm_num
  simp only [evalBatch, recNeg]
  norm_num [hpred, hprec, hrec, hacc, hf1]

theorem mapBatches_recAB :
    mapBatches [recA, recB] = Except.ok [(1, 1, 1, 1), (1/2, 1/3, 0, 0)] := by
  simp only [mapBatches, evalBatch_recA, evalBatch_recB]

theorem eval_recNeg : eval [recNeg] = Except.ok (1, 1, 0, 0) := by
  simp only [eval, evalLoop, evalBatch_recNeg]
  norm_num

/-! ## Claim theorems -/

/-- C3: For every non-empty sequence of PredictionRecords (on which the
per-batch metric computation is defined), the Metric Aggregator computes
each record's predicted classes as the row-wise argmax of the probability
vectors, computes per-batch accuracy, macro-F1, positive-class precision
and positive-class recall (the computation embedded in `evalBatch`), and
returns for each metric the unweighted arithmetic mean of the per-batch
values — each batch weighted equally regardless of its size.  `eval` is a
pure function of its input, so it has no side effect on the records. -/
theorem eval_is_mean_of_batch_metrics (log : List Record)
    (per : List (ℚ × ℚ × ℚ × ℚ)) (hne : log ≠ [])
    (hok : mapBatches log = Except.ok per) :
    eval log = Except.ok
      (mean (per.map fun v => v.1), mean (per.map fun v => v.2.1),
       mean (per.map fun v => v.2.2.1), mean (per.map fun v => v.2.2.2)) :=
  eval_eq_mean log per hok hne

/-- Witness for C3: a concrete log of two batches of unequal sizes (one
and two samples); the result is the unweighted mean of the two batches'
metric values. -/
theorem eval_is_mean_of_batch_metrics_w :
    eval [recA, recB] = Except.ok
      (mean (([(1, 1, 1, 1), (1/2, 1/3, 0, 0)] : List (ℚ × ℚ × ℚ × ℚ)).map fun v => v.1),
       mean (([(1, 1, 1, 1), (1/2, 1/3, 0, 0)] : List (ℚ × ℚ × ℚ × ℚ)).map fun v => v.2.1),
       mean (([(1, 1, 1, 1), (1/2, 1/3, 0, 0)] : List (ℚ × ℚ × ℚ × ℚ)).map fun v => v.2.2.1),
       mean (([(1, 1, 1, 1), (1/2, 1/3, 0, 0)] : List (ℚ × ℚ × ℚ × ℚ)).map fun v => v.2.2.2)) :=
  eval_is_mean_of_batch_metrics [recA, recB] [(1, 1, 1, 1), (1/2, 1/3, 0, 0)]
    (by simp) mapBatches_recAB

/-- C4 (counterexample): on the empty sequence the Metric Aggregator does
not return four averages — it fails with Python's ZeroDivisionError, since
`eval` ends in `accuracy/len(log)` with `len(log) = 0`. -/
theorem eval_empty_fails :
    eval ([] : List Record) =
      Except.error "ZeroDivisionError: division by zero" := rfl

/-- C4 (amended): whenever the Metric Aggregator returns (which requires a
non-empty sequence — the empty sequence fails with a ZeroDivisionError),
the four returned averages (accuracy, macro-F1, precision, recall) each
lie in the closed interval [0, 1]. -/
theorem eval_ok_bounds (log : List Record) (a f p r : ℚ)
    (h : eval log = Except.ok (a, f, p, r)) :
    (0 ≤ a ∧ a ≤ 1) ∧ (0 ≤ f ∧ f ≤ 1) ∧
    (0 ≤ p ∧ p ≤ 1) ∧ (0 ≤ r ∧ r ≤ 1) := by
  obtain ⟨per, hm, _, hv⟩ := eval_ok_inv log (a, f, p, r) h
  have hb : ∀ v ∈ per,
      (0 ≤ v.1 ∧ v.1 ≤ 1) ∧ (0 ≤ v.2.1 ∧ v.2.1 ≤ 1) ∧
      (0 ≤ v.2.2.1 ∧ v.2.2.1 ≤ 1) ∧ (0 ≤ v.2.2.2 ∧ v.2.2.2 ≤ 1) := by
    intro v hv'
    obtain ⟨b, _, hbe⟩ := mapBatches_mem log per v hm hv'
    exact evalBatch_ok_bounds b v hbe
  simp only [Prod.mk.injEq] at hv
  obtain ⟨ha, hf, hp, hr⟩ := hv
  subst ha hf hp hr
  refine ⟨mean_mem_unit _ ?_, mean_mem_unit _ ?_, mean_mem_unit _ ?_,
    mean_mem_unit _ ?_⟩ <;> intro x hx
  · obtain ⟨v, hvm, rfl⟩ := List.mem_map.mp hx
    exact (hb v hvm).1
  · obtain ⟨v, hvm, rfl⟩ := List.mem_map.mp hx
    exact (hb v hvm).2.1
  · obtain ⟨v, hvm, rfl⟩ := List.mem_map.mp hx
    exact (hb v hvm).2.2.1
  · obtain ⟨v, hvm, rfl⟩ := List.mem_map.mp hx
    exact (hb v hvm).2.2.2

/-- Witness for C4 (amended) at a concrete one-batch log. -/
theorem eval_ok_bounds_w :
    ((0 : ℚ) ≤ 1 ∧ (1 : ℚ) ≤ 1) ∧ ((0 : ℚ) ≤ 1 ∧ (1 : ℚ) ≤ 1) ∧
    ((0 : ℚ) ≤ 0 ∧ (0 : ℚ) ≤ 1) ∧ ((0 : ℚ) ≤ 0 ∧ (0 : ℚ) ≤ 1) :=
  eval_ok_bounds [recNeg] 1 1 0 0 eval_recNeg

/-- A non-empty list of zeros dedups to the singleton class set. -/
theorem toFinset_all_zero (l : List ℕ) (hne : l ≠ []) (h : ∀ x ∈ l, x = 0) :
    l.toFinset = {0} := by
  ext a
  simp only [List.mem_toFinset, Finset.mem_singleton]
  constructor
  · exact fun ha => h a ha
  · rintro rfl
    rcases List.exists_mem_of_ne_nil l hne with ⟨x, hx⟩
    exact (h x hx) ▸ hx

/-- C5: for a batch whose true labels and predicted classes are all the
negative class 0 (the positive class absent from the predictions), the
per-batch precision and recall are 0 — sklearn's `zero_division=0` guard,
not a failure (accuracy and macro-F1 are 1 since predictions match
labels), and aggregation over a sequence containing such a batch completes
normally. -/
theorem precision_recall_zero_on_all_negative (r : Record)
    (h1 : r.labels ≠ [])
    (h2 : ∀ row ∈ r.probs, 2 ≤ row.length)
    (h3 : r.probs.length = r.labels.length)
    (h4 : ∀ y ∈ r.labels, y = 0)
    (h5 : ∀ row ∈ r.probs, argmax row = 0) :
    evalBatch r = Except.ok (1, 1, 0, 0) ∧
    eval [r] = Except.ok (1, 1, 0, 0) := by
  have hpred : ∀ q ∈ r.probs.map argmax, q = 0 := by
    intro q hq
    rcases List.mem_map.mp hq with ⟨row, hrow, hq'⟩
    exact hq' ▸ h5 row hrow
  have hplen : (r.probs.map argmax).length = r.labels.length := by
    simp [h3]
  have hn : r.labels.length ≠ 0 := fun hh => h1 (List.length_eq_zero.mp hh)
  have hpne : r.probs.map argmax ≠ [] := by
    intro hh
    exact hn (by rw [← hplen, hh]; rfl)
  have hz : ∀ ab ∈ r.labels.zip (r.probs.map argmax), ab.1 = 0 ∧ ab.2 = 0 := by
    intro ab hab
    rcases ab with ⟨u, w⟩
    rcases List.of_mem_zip hab with ⟨hu, hw⟩
    exact ⟨h4 u hu, hpred w hw⟩
  have hziplen : (r.labels.zip (r.probs.map argmax)).length = r.labels.length := by
    rw [List.length_zip, hplen, min_self]
  have hcast : (r.labels.length : ℚ) ≠ 0 := Nat.cast_ne_zero.mpr hn
  have hacc : accuracy_score r.labels (r.probs.map argmax) = 1 := by
    have hcount : (r.labels.zip (r.probs.map argmax)).countP
        (fun ab => ab.1 == ab.2) = r.labels.length := by
      rw [← hziplen]
      apply List.countP_eq_length.mpr
      intro ab hab
      simp [(hz ab hab).1, (hz ab hab).2]
    rw [accuracy_score, hcount]
    exact div_self hcast
  have hp0 : presentLabels r.labels (r.probs.map argmax) = {0} := by
    rw [presentLabels, toFinset_all_zero r.labels h1 h4,
      toFinset_all_zero _ hpne hpred, Finset.union_self]
  have hbe : binaryTargetError r.labels (r.probs.map argmax) = false := by
    simp [binaryTargetError, hp0]
  have tp1 : tpCount r.labels (r.probs.map argmax) 1 = 0 := by
    apply List.countP_eq_zero.mpr
    intro ab hab
    simp [(hz ab hab).1]
  have fp1 : fpCount r.labels (r.probs.map argmax) 1 = 0 := by
    apply List.countP_eq_zero.mpr
    intro ab hab
    simp [(hz ab hab).2]
  have fn1 : fnCount r.labels (r.probs.map argmax) 1 = 0 := by
    apply List.countP_eq_zero.mpr
    intro ab hab
    simp [(hz ab hab).1]
  have hprec : precision_score r.labels (r.probs.map argmax) = Except.ok 0 := by
    rw [precision_score, hbe, tp1, fp1]
    norm_num
  have hrec : recall_score r.labels (r.probs.map argmax) = Except.ok 0 := by
    rw [recall_score, hbe, tp1, fn1]
    norm_num
  have hf1 : f1_macro_avg r.labels (r.probs.map argmax) = 1 := by
    have tp0 : tpCount r.labels (r.probs.map argmax) 0 = r.labels.length := by
      rw [tpCount, ← hziplen]
      apply List.countP_eq_length.mpr
      intro ab hab
      simp [(hz ab hab).1, (hz ab hab).2]
    have fp0 : fpCount r.labels (r.probs.map argmax) 0 = 0 := by
      apply List.countP_eq_zero.mpr
      intro ab hab
      simp [(hz ab hab).1]
    have fn0 : fnCount r.labels (r.probs.map argmax) 0 = 0 := by
      apply List.countP_eq_zero.mpr
      intro ab hab
      simp [(hz ab hab).2]
    have c0 : f1Class r.labels (r.probs.map argmax) 0 = 1 := by
      rw [f1Class, tp0, fp0, fn0]
      have h2n : ((2 * r.labels.length : ℕ) : ℚ) ≠ 0 := by
        push_cast
        intro hh
        apply hcast
        linarith
      exact div_self h2n
    rw [f1_macro_avg, hp0, Finset.sum_singleton, c0]
    norm_num
  have cond1 : (r.probs.any fun row => decide (row.length < 2)) = false := by
    apply List.any_eq_false.mpr
    intro row hrow
    simp only [decide_eq_true_eq]
    exact Nat.not_lt.mpr (h2 row hrow)
  have cond2 : (r.probs.length != r.labels.length) = false := by
    simp [h3]
  have hmain : evalBatch r = Except.ok (1, 1, 0, 0) := by
    rw [evalBatch, cond1, cond2]
    simp only [Bool.false_eq_true, if_false, hprec, hrec, hacc, hf1]
  refine ⟨hmain, ?_⟩
  simp only [eval, evalLoop, hmain]
  norm_num

/-- Witness for C5 at a concrete one-sample all-negative batch. -/
theorem precision_recall_zero_on_all_negative_w :
    evalBatch recNeg = Except.ok (1, 1, 0, 0) ∧
    eval [recNeg] = Except.ok (1, 1, 0, 0) :=
  precision_recall_zero_on_all_negative recNeg
    (by simp [recNeg])
    (by intro row hr; simp [recNeg] at hr; subst hr; norm_num)
    (by simp [recNeg])
    (by intro y hy; simp [recNeg] at hy; exact hy)
    (by intro row hr; simp [recNeg] at hr; subst hr; norm_num [argmax, argmaxGo])

/-- C10: the Metric Aggregator assumes binary classification — it indexes
column 1 of each probability matrix and scores precision/recall with the
binary positive-class average, so a record whose probability vectors have
fewer than two entries, or whose labels span more than two classes (e.g. a
multiclass dataset such as ENZYMES), makes the aggregation raise an error
instead of returning metrics. -/
theorem eval_multiclass_or_short_row_errors (log : List Record) (r : Record)
    (hr : r ∈ log)
    (h : 2 < r.labels.toFinset.card ∨ ∃ row ∈ r.probs, row.length < 2) :
    ∃ e, eval log = Except.error e := by
  have hbatch : ∃ e1, evalBatch r = Except.error e1 := by
    by_cases hany : (r.probs.any fun row => decide (row.length < 2)) = true
    · refine ⟨"IndexError: index 1 is out of bounds for axis 1", ?_⟩
      rw [evalBatch, hany]
      simp
    · have hany' : (r.probs.any fun row => decide (row.length < 2)) = false :=
        Bool.not_eq_true _ ▸ eq_false_of_ne_true hany
      rcases h with hcard | ⟨row, hrow, hlen⟩
      · by_cases hll : (r.probs.length != r.labels.length) = true
        · refine ⟨"ValueError: inconsistent numbers of samples", ?_⟩
          rw [evalBatch, hany', hll]
          simp
        · have hll' : (r.probs.length != r.labels.length) = false :=
            eq_false_of_ne_true hll
          have hcard' : 2 < (presentLabels r.labels (r.probs.map argmax)).card :=
            lt_of_lt_of_le hcard
              (Finset.card_le_card Finset.subset_union_left)
          have hbt : binaryTargetError r.labels (r.probs.map argmax) = true := by
            simp [binaryTargetError, hcard']
          have hpe : precision_score r.labels (r.probs.map argmax) =
              Except.error "ValueError: target is multiclass but average is binary" := by
            rw [precision_score, hbt]
            simp
          refine ⟨"ValueError: target is multiclass but average is binary", ?_⟩
          rw [evalBatch, hany', hll']
          simp only [Bool.false_eq_true, if_false, hpe]
      · exact absurd (List.any_eq_true.mpr ⟨row, hrow, decide_eq_true hlen⟩) hany
  obtain ⟨e1, he1⟩ := hbatch
  obtain ⟨e2, he2⟩ := mapBatches_error_of_mem log r e1 hr he1
  exact ⟨e2, by simp only [eval, evalLoop_error log e2 0 0 0 0 he2]⟩

/-- Witness for C10: a three-class batch makes the aggregation fail. -/
theorem eval_multiclass_or_short_row_errors_w :
    ∃ e, eval [recMulti] = Except.error e :=
  eval_multiclass_or_short_row_errors [recMulti] recMulti
    (by simp)
    (Or.inl (by decide))

/-- `int(n * 0.6)` is natural division `n * 6 / 10`. -/
theorem num_training_eq (n : ℕ) : num_training n = n * 6 / 10 := by
  rw [num_training,
    show ((n : ℚ) * (0.6 : ℚ)) = ((n * 6 : ℕ) : ℚ) / ((10 : ℕ) : ℚ) by
      push_cast; ring_nf]
  exact Nat.floor_div_eq_div _ _

/-- `int(n * 0.1)` is natural division `n / 10`. -/
theorem num_val_eq (n : ℕ) : num_val n = n / 10 := by
  rw [num_val,
    show ((n : ℚ) * (0.1 : ℚ)) = ((n : ℕ) : ℚ) / ((10 : ℕ) : ℚ) by
      push_cast; ring_nf]
  exact Nat.floor_div_eq_div _ _

/-- The train and validation chunk sizes never exceed the dataset size. -/
theorem split_le (n : ℕ) : num_training n + num_val n ≤ n := by
  rw [num_training_eq, num_val_eq]
  have h1 : n * 6 / 10 * 10 ≤ n * 6 := Nat.div_mul_le_self _ _
  have h2 : n / 10 * 10 ≤ n := Nat.div_mul_le_self _ _
  omega

theorem split_sizes_sum (n : ℕ) : num_training n + num_val n + num_test n = n := by
  have := split_le n
  rw [num_test]
  omega

/-- C6: for a dataset of `n` samples the partition sizes are
`|train| = ⌊0.6·n⌋`, `|val| = ⌊0.1·n⌋` and `|test| = n - |train| - |val|`,
summing exactly to `n`, and the three chunks handed out by `random_split`
(over whatever permutation of the indices torch draws at startup) are
pairwise disjoint. -/
theorem split_partition (n : ℕ) (perm : List ℕ)
    (hp : perm.Perm (List.range n)) :
    num_training n = ⌊(0.6 : ℚ) * n⌋₊ ∧
    num_val n = ⌊(0.1 : ℚ) * n⌋₊ ∧
    num_training n + num_val n + num_test n = n ∧
    (random_split perm n).1.length = num_training n ∧
    (random_split perm n).2.1.length = num_val n ∧
    (random_split perm n).2.2.length = num_test n ∧
    (random_split perm n).1.Disjoint (random_split perm n).2.1 ∧
    (random_split perm n).1.Disjoint (random_split perm n).2.2 ∧
    (random_split perm n).2.1.Disjoint (random_split perm n).2.2 := by
  have hlen : perm.length = n := hp.length_eq.trans (List.length_range n)
  have hnd : perm.Nodup := hp.nodup_iff.mpr (List.nodup_range n)
  have hle : num_training n + num_val n ≤ n := split_le n
  have hta : num_training n ≤ n := le_trans (Nat.le_add_right _ _) hle
  refine ⟨by rw [num_training, mul_comm], by rw [num_val, mul_comm],
    split_sizes_sum n, ?_, ?_, ?_, ?_, ?_, ?_⟩
  · simp only [random_split, List.length_take, hlen]
    omega
  · simp only [random_split, List.length_take, List.length_drop, hlen]
    omega
  · simp only [random_split, List.length_drop, hlen, num_test]
  · have d1 : List.Disjoint (perm.take (num_training n))
        (perm.drop (num_training n)) := List.disjoint_take_drop hnd le_rfl
    simp only [random_split]
    intro x hx1 hx2
    exact d1 hx1 (List.take_subset _ _ hx2)
  · simp only [random_split]
    exact List.disjoint_take_drop hnd (Nat.le_add_right _ _)
  · simp only [random_split]
    have hnd2 : (perm.drop (num_training n)).Nodup :=
      hnd.sublist (List.drop_sublist _ _)
    have hdd : perm.drop (num_training n + num_val n) =
        (perm.drop (num_training n)).drop (num_val n) := by
      rw [List.drop_drop, Nat.add_comm]
    rw [hdd]
    exact List.disjoint_take_drop hnd2 le_rfl

/-- Witness for C6 on a dataset of 5 samples with the identity
permutation: sizes 3/0/2. -/
theorem split_partition_w :
    num_training 5 = ⌊(0.6 : ℚ) * 5⌋₊ ∧
    num_val 5 = ⌊(0.1 : ℚ) * 5⌋₊ ∧
    num_training 5 + num_val 5 + num_test 5 = 5 ∧
    (random_split (List.range 5) 5).1.length = num_training 5 ∧
    (random_split (List.range 5) 5).2.1.length = num_val 5 ∧
    (random_split (List.range 5) 5).2.2.length = num_test 5 ∧
    (random_split (List.range 5) 5).1.Disjoint (random_split (List.range 5) 5).2.1 ∧
    (random_split (List.range 5) 5).1.Disjoint (random_split (List.range 5) 5).2.2 ∧
    (random_split (List.range 5) 5).2.1.Disjoint (random_split (List.range 5) 5).2.2 :=
  split_partition 5 (List.range 5) (List.Perm.refl _)

/-- Unfolding the epoch-event trace by one epoch. -/
theorem flatMap_epochEvents_succ (N : ℕ) :
    (List.range (N + 1)).flatMap epochEvents =
      (List.range N).flatMap epochEvents ++ epochEvents N := by
  simp [List.range_succ]

/-- If every epoch contributes `c` events satisfying `pr`, the loop over
`N` epochs contributes `N * c` of them. -/
theorem countP_epochs (pr : Ev → Bool) (c : ℕ)
    (h : ∀ k, (epochEvents k).countP pr = c) (N : ℕ) :
    ((List.range N).flatMap epochEvents).countP pr = N * c := by
  induction N with
  | zero => simp
  | succ m ih =>
    rw [flatMap_epochEvents_succ, List.countP_append, ih, h m]
    ring

/-- The events of epoch `k` occur, in order, inside the loop's trace. -/
theorem epochEvents_sublist :
    ∀ (L : List ℕ) (k : ℕ), k ∈ L →
      List.Sublist (epochEvents k) (L.flatMap epochEvents) := by
  intro L
  induction L with
  | nil => intro k hk; cases hk
  | cons a t ih =>
    intro k hk
    rw [List.flatMap_cons]
    rcases List.mem_cons.mp hk with hk | hk
    · subst hk
      exact List.sublist_append_left _ _
    · exact (ih k hk).trans (List.sublist_append_right _ _)

/-- C7: for every configured epoch count `N`, the Training Driver performs
exactly `N` training passes, `N` validation passes and `N` per-epoch
summary lines, followed by exactly one test pass and one test-summary
line; epoch `k`'s summary comes after its training and validation passes,
and the test pass comes after all of them — so the test evaluation never
runs before all `N` training epochs complete. -/
theorem driver_trace_structure (N k : ℕ) (hk : k < N) :
    (driverTrace N).countP isTrainPass = N ∧
    (driverTrace N).countP isValPass = N ∧
    (driverTrace N).countP isEpochLine = N ∧
    (driverTrace N).countP isTestPass = 1 ∧
    (driverTrace N).countP isTestLine = 1 ∧
    List.Sublist [Ev.trainPass k, Ev.valPass k, Ev.epochLine k, Ev.testPass]
      (driverTrace N) := by
  have ctrain : ∀ j, (epochEvents j).countP isTrainPass = 1 := by
    intro j; simp [epochEvents, isTrainPass]
  have cval : ∀ j, (epochEvents j).countP isValPass = 1 := by
    intro j; simp [epochEvents, isValPass]
  have cline : ∀ j, (epochEvents j).countP isEpochLine = 1 := by
    intro j; simp [epochEvents, isEpochLine]
  have ctp : ∀ j, (epochEvents j).countP isTestPass = 0 := by
    intro j; simp [epochEvents, isTestPass]
  have ctl : ∀ j, (epochEvents j).countP isTestLine = 0 := by
    intro j; simp [epochEvents, isTestLine]
  refine ⟨?_, ?_, ?_, ?_, ?_, ?_⟩
  · rw [driverTrace, List.countP_append, countP_epochs isTrainPass 1 ctrain N]
    simp [isTrainPass]
  · rw [driverTrace, List.countP_append, countP_epochs isValPass 1 cval N]
    simp [isValPass]
  · rw [driverTrace, List.countP_append, countP_epochs isEpochLine 1 cline N]
    simp [isEpochLine]
  · rw [driverTrace, List.countP_append, countP_epochs isTestPass 0 ctp N]
    simp [isTestPass]
  · rw [driverTrace, List.countP_append, countP_epochs isTestLine 0 ctl N]
    simp [isTestLine]
  · have h1 : List.Sublist (epochEvents k) ((List.range N).flatMap epochEvents) :=
      epochEvents_sublist (List.range N) k (List.mem_range.mpr hk)
    have h2 : List.Sublist [Ev.testPass] [Ev.testPass, Ev.testLine] := by
      refine List.Sublist.cons₂ _ ?_
      exact List.nil_sublist _
    exact h1.append h2

/-- Witness for C7 with two epochs, looking at the second epoch. -/
theorem driver_trace_structure_w :
    (driverTrace 2).countP isTrainPass = 2 ∧
    (driverTrace 2).countP isValPass = 2 ∧
    (driverTrace 2).countP isEpochLine = 2 ∧
    (driverTrace 2).countP isTestPass = 1 ∧
    (driverTrace 2).countP isTestLine = 1 ∧
    List.Sublist [Ev.trainPass 1, Ev.valPass 1, Ev.epochLine 1, Ev.testPass]
      (driverTrace 2) :=
  driver_trace_structure 2 1 (by decide)

/-- C8: running the eval-mode pass `compute_test` twice in immediate
succession on the same loader yields identical loss and identical
metrics, and the second run leaves the state exactly where the first one
left it: `model.eval()` puts the model into deterministic inference mode,
`torch.no_grad()` leaves the parameters untouched, and the loader order is
fixed (`shuffle=False`). -/
theorem compute_test_deterministic {P B : Type} (fwd : P → Bool → B → Record)
    (nll : P → Bool → B → ℚ) (s : MState P) (loader : List B) :
    (compute_test fwd nll ((compute_test fwd nll s loader).2) loader).1 =
      (compute_test fwd nll s loader).1 ∧
    (compute_test fwd nll ((compute_test fwd nll s loader).2) loader).2 =
      (compute_test fwd nll s loader).2 :=
  ⟨rfl, rfl⟩

/-- C1: the model is NOT restored to training mode after validation —
`model.train()` runs once before the epoch loop, `compute_test` switches
to eval mode, and nothing switches back, so with 2 configured epochs the
training batches of the second epoch run with the mode flag off
(dropout inactive): the per-epoch mode flags are `[true, false]`, where
the claim requires the second entry to be `true`. -/
theorem second_epoch_trains_in_eval_mode :
    (runEpochs fwd0 nll0 upd0 [()] { params := (), training := true } 2).1 =
      [true, false] := rfl

/-- C2: the training-pass prediction log is not pass-local — `out_log` is
created once before the epoch loop and never cleared, so with one batch
per epoch the list handed to the Metric Aggregator at the end of the
second epoch (epoch index 1) still contains the record of epoch 0: it is
`[(0, 0), (1, 0)]`, not just epoch 1's own `batchRecords 1 1 = [(1, 0)]`. -/
theorem out_log_persists_across_epochs :
    outLogAt 1 1 = [(0, 0), (1, 0)] ∧ outLogAt 1 1 ≠ batchRecords 1 1 := by
  constructor
  · rfl
  · intro h
    have : ((0, 0) : ℕ × ℕ) ∈ batchRecords 1 1 := by
      rw [← h]; simp [outLogAt, batchRecords]
    simp [batchRecords] at this

/-- C9 (counterexample): the argument parser does not validate the
dataset name — `add_argument('--dataset', ...)` passes no `choices`, so a
value outside the allowed set of the help text, such as "FOO", is accepted
at parse time rather than rejected. -/
theorem dataset_flag_not_validated :
    checkValue datasetChoices "FOO" = Except.ok "FOO" ∧
    "FOO" ∉ allowedDatasets := by
  refine ⟨rfl, ?_⟩
  simp [allowedDatasets]

/-- C9 (amended): the parser accepts any string for `--dataset`; the fixed
set of dataset names appears only in the flag's help text, and an unknown
name fails later, at dataset loading, not at argument parsing. -/
theorem dataset_flag_accepts_any_string (v : String) :
    checkValue datasetChoices v = Except.ok v := rfl
